import Mathlib

/-!
Shallow embedding of the real-time room presence and connection-tracking
subsystem of the zyX-dev-server backend (directory
`backend/BoilerPlate-v1-03/server`).

Embedded source files:
* `helpers/redis.py`  — connection registry and verification flag store
* `views/ws/rooms/join.py`, `leave.py` — socket event handlers
* `views/ws/rooms/common.py` — `emit_presence`
* `views/ws/rooms/__init__.py` — `room_create` HTTP endpoint
* `models/room/room.py`, `models/auth/user.py` — relational rows

Modelling conventions:
* Machine time is an explicit `Nat` parameter (`int(time.time())` seconds for
  relational timestamps and Redis TTLs, a separate parameter for `now_ms()`).
* The Redis client that `get_redis_client()` may fail to produce is modelled
  as `Option RedisState`; `none` is the "store unavailable" degraded mode.
* Redis string keys carry an absolute expiry instant (`setex key ttl v` at
  time `t` stores expiry `t + ttl`; `EXISTS` at time `t2` sees the key iff
  `t2 < t + ttl`).  The 24-hour TTL placed on connection-set keys by
  `expire` is recorded but its lapse is not modelled: no embedded operation
  observes it.
* JWT authentication (`get_user_id_from_socket`) is abstracted as the
  decoded result `auth : Option Nat`; Python truthiness of the id
  (`if not user_id`) is preserved, so `some 0` behaves like `none`.
* ORM row updates (`db.session.get` then attribute assignment and commit)
  become a conditional map over the user list keyed by the primary-key id.
-/

/-- JSON-like payload values carried by socket events. -/
inductive JVal where
  | jnull : JVal
  | jbool (b : Bool) : JVal
  | jnum (n : Int) : JVal
  | jstr (s : String) : JVal
  | jobj (fields : List (String × JVal)) : JVal

/-- The top-level keys of a JSON object payload (empty for non-objects). -/
def JVal.keys : JVal → List String
  | .jobj fields => fields.map Prod.fst
  | _ => []

/-- Optional integer (e.g. an echoed `clientTimestamp`) as JSON. -/
def jOfOptInt : Option Int → JVal
  | none => .jnull
  | some n => .jnum n

/-- Optional foreign key (e.g. `owner_id`) as JSON. -/
def jOfOptNat : Option Nat → JVal
  | none => .jnull
  | some n => .jnum n

/-- Destination of a socket emit: a single connection (`to=request.sid`) or a
broadcast group (`room=...`). -/
inductive Dest where
  | sid (s : String) : Dest
  | group (g : String) : Dest
deriving DecidableEq

/-- One `socketio.emit(name, payload, dest)` call observed on the wire. -/
structure Event where
  name : String
  payload : JVal
  dest : Dest

/-- Relational `User` row (`models/auth/user.py`). -/
structure User where
  id : Nat
  google_sub : Option String := none
  email : Option String := none
  name : Option String := none
  picture : Option String := none
  last_seen : Nat
  active : Bool
  role : String := "user"
  fake_user : Bool := false
deriving DecidableEq

/-- Relational `Room` row (`models/room/room.py`). -/
structure Room where
  id : Nat
  code : String
  owner_id : Option Nat
  created_at : Nat
  is_private : Bool
deriving DecidableEq

/-- Function `Room.to_dict` from `models/room/room.py`. -/
def Room.to_dict (r : Room) : JVal :=
  .jobj
    [ ("id", .jnum (r.id : Int))
    , ("code", .jstr r.code)
    , ("owner_id", jOfOptNat r.owner_id)
    , ("created_at", .jnum (r.created_at : Int))
    , ("is_private", .jbool r.is_private)
    ]

/-- State of the external key-value store.  `setKeys k = none` means the key
`k` does not exist as a set; string keys store their value together with the
absolute expiry instant set by `setex`. -/
structure RedisState where
  setKeys : String → Option (Finset String)
  setExpiry : String → Option Nat
  strKeys : String → Option (String × Nat)

/-- Redis `SADD key member` (creates the set key if absent). -/
def RedisState.sadd (s : RedisState) (k m : String) : RedisState :=
  { s with setKeys := fun k2 =>
      if k2 = k then some (insert m ((s.setKeys k).getD ∅)) else s.setKeys k2 }

/-- Redis `EXPIRE key ttl` issued at time `now` (records the deadline). -/
def RedisState.expire (s : RedisState) (k : String) (now ttl : Nat) : RedisState :=
  { s with setExpiry := fun k2 =>
      if k2 = k then some (now + ttl) else s.setExpiry k2 }

/-- Redis `SREM key member` (no-op on a nonexistent key). -/
def RedisState.srem (s : RedisState) (k m : String) : RedisState :=
  { s with setKeys := fun k2 =>
      if k2 = k then (s.setKeys k).map (fun t => t.erase m) else s.setKeys k2 }

/-- Redis `SCARD key` (0 for a nonexistent key). -/
def RedisState.scard (s : RedisState) (k : String) : Nat :=
  ((s.setKeys k).getD ∅).card

/-- Redis `SMEMBERS key` (empty for a nonexistent key). -/
def RedisState.smembers (s : RedisState) (k : String) : Finset String :=
  (s.setKeys k).getD ∅

/-- Redis `DEL key` (removes the key whatever its type). -/
def RedisState.del (s : RedisState) (k : String) : RedisState :=
  { setKeys := fun k2 => if k2 = k then none else s.setKeys k2
  , setExpiry := fun k2 => if k2 = k then none else s.setExpiry k2
  , strKeys := fun k2 => if k2 = k then none else s.strKeys k2 }

/-- Redis `SETEX key ttl value` issued at time `now`. -/
def RedisState.setex (s : RedisState) (k : String) (now ttl : Nat) (v : String) : RedisState :=
  { s with strKeys := fun k2 =>
      if k2 = k then some (v, now + ttl) else s.strKeys k2 }

/-- Redis `EXISTS key` at time `now`: a set key counts while present, a
string key counts while its `setex` expiry has not elapsed. -/
def RedisState.keyExists (s : RedisState) (now : Nat) (k : String) : Bool :=
  (s.setKeys k).isSome ||
    (match s.strKeys k with
     | some (_, exp) => decide (now < exp)
     | none => false)

/-- Function `_get_user_connections_key` from `helpers/redis.py`. -/
def user_connections_key (uid : Nat) : String :=
  "user:sockets:" ++ toString uid

/-- Function `_get_user_verification_key` from `helpers/redis.py`. -/
def user_verification_key (uid : Nat) : String :=
  "user:verification:" ++ toString uid

/-- Function `set_user_verification_received` from `helpers/redis.py`: sets the
verification flag with a 30-second TTL; no-op when Redis is unavailable. -/
def set_user_verification_received (now : Nat) (r : Option RedisState) (uid : Nat) :
    Option RedisState :=
  match r with
  | none => none
  | some s => some (s.setex (user_verification_key uid) now 30 "verified")

/-- Function `clear_user_verification` from `helpers/redis.py`. -/
def clear_user_verification (r : Option RedisState) (uid : Nat) : Option RedisState :=
  match r with
  | none => none
  | some s => some (s.del (user_verification_key uid))

/-- Function `has_user_been_verified` from `helpers/redis.py`: `EXISTS` on the
verification key; `false` when Redis is unavailable. -/
def has_user_been_verified (now : Nat) (r : Option RedisState) (uid : Nat) : Bool :=
  match r with
  | none => false
  | some s => s.keyExists now (user_verification_key uid)

/-- Function `track_socket_connection` from `helpers/redis.py`: `SADD` the socket id
into the connection set of the user, then `EXPIRE` the set to 24 hours (86400 s). -/
def track_socket_connection (now : Nat) (r : Option RedisState) (uid : Nat) (sid : String) :
    Option RedisState :=
  match r with
  | none => none
  | some s =>
      some ((s.sadd (user_connections_key uid) sid).expire
        (user_connections_key uid) now 86400)

/-- Function `remove_socket_connection` from `helpers/redis.py`: `SREM` the socket id
and, if the remaining cardinality is 0, `DEL` the key entirely. -/
def remove_socket_connection (r : Option RedisState) (uid : Nat) (sid : String) :
    Option RedisState :=
  match r with
  | none => none
  | some s =>
      let s1 := s.srem (user_connections_key uid) sid
      if s1.scard (user_connections_key uid) = 0 then
        some (s1.del (user_connections_key uid))
      else
        some s1

/-- Function `get_user_socket_connections` from `helpers/redis.py`: `SMEMBERS`, or the
empty set when Redis is unavailable. -/
def get_user_socket_connections (r : Option RedisState) (uid : Nat) : Finset String :=
  match r with
  | none => ∅
  | some s => s.smembers (user_connections_key uid)

/-- Function `check_user_other_connections` from `helpers/redis.py`: fetch the connections of the user, discard the disconnecting socket id, test non-emptiness. -/
def check_user_other_connections (r : Option RedisState) (uid : Nat) (sid : String) : Bool :=
  decide (0 < ((get_user_socket_connections r uid).erase sid).card)

/-- Whether the connection-registry key for `uid` is absent (vacuously so when
the store is unavailable). -/
def conn_key_absent (r : Option RedisState) (uid : Nat) : Bool :=
  match r with
  | none => true
  | some s => (s.setKeys (user_connections_key uid)).isNone

/-- Lowercase hex digit for a value below 16 (Python `%x` formatting). -/
def hexDigitChar (n : Nat) : Char :=
  if n < 10 then Char.ofNat (48 + n) else Char.ofNat (87 + n)

/-- The two lowercase hex digits of one byte (Python `%02x`). -/
def byteToHex (b : Nat) : List Char :=
  [hexDigitChar (b / 16 % 16), hexDigitChar (b % 16)]

/-- Hex encoding of the first `nbytes` bytes drawn from the random byte
stream `rb`, in draw order. -/
def tokenHexAux : Nat → (Nat → Nat) → List Char
  | 0, _ => []
  | n + 1, rb => tokenHexAux n rb ++ byteToHex (rb n % 256)

/-- Python `secrets.token_hex(nbytes)`: the randomness source is the explicit byte
stream `rb` (each draw reduced mod 256). -/
def token_hex (nbytes : Nat) (rb : Nat → Nat) : String :=
  ⟨tokenHexAux nbytes rb⟩

/-- Membership in the lowercase hex alphabet. -/
def isHexChar (ch : Char) : Bool :=
  (48 ≤ ch.toNat && ch.toNat ≤ 57) || (97 ≤ ch.toNat && ch.toNat ≤ 102)

/-- Full server-side state touched by the embedded handlers: the relational
store (users, rooms), the Redis connection (`none` = unavailable) and the
socket-group membership table of the transport. -/
structure ServerState where
  users : List User
  rooms : List Room
  redis : Option RedisState
  groups : String → Finset String

/-- The client-supplied event data dict (`data.get("code")`,
`data.get("clientTimestamp")`). -/
structure EventData where
  code : Option String := none
  clientTimestamp : Option Int := none

/-- Python truthiness of a decoded user id: `None` and `0` are falsy. -/
def idTruthy : Option Nat → Bool
  | none => false
  | some n => decide (n ≠ 0)

/-- Python truthiness of an optional string: `None` and `""` are falsy. -/
def strTruthy : Option String → Bool
  | none => false
  | some s => decide (s ≠ "")

/-- Lookup `Room.query.filter_by(code=code).first()`. -/
def find_room_by_code (rooms : List Room) (c : String) : Option Room :=
  rooms.find? (fun r => r.code == c)

/-- Lookup `db.session.get(Room, room_id)`. -/
def find_room_by_id (rooms : List Room) (rid : Nat) : Option Room :=
  rooms.find? (fun r => r.id == rid)

/-- Lookup `db.session.get(User, user_id)`. -/
def find_user_by_id (users : List User) (uid : Nat) : Option User :=
  users.find? (fun u => u.id == uid)

/-- The user update of the join handler: fetch the row by primary key and, when it
exists, set `last_seen = int(time.time())` and `active = True`. -/
def update_user_on_join (users : List User) (uid nowS : Nat) : List User :=
  match find_user_by_id users uid with
  | none => users
  | some _ =>
      users.map (fun u =>
        if u.id = uid then { u with last_seen := nowS, active := true } else u)

/-- The user update of the leave handler: fetch the row by primary key and, when it
exists, set only `last_seen = int(time.time())`. -/
def update_user_on_leave (users : List User) (uid nowS : Nat) : List User :=
  match find_user_by_id users uid with
  | none => users
  | some _ =>
      users.map (fun u =>
        if u.id = uid then { u with last_seen := nowS } else u)

/-- Name of the broadcast channel of a room (`f"room:{room.code}"`). -/
def room_group (code : String) : String :=
  "room:" ++ code

/-- Transport `flask_socketio.join_room`: subscribe `sid` to group `g`. -/
def join_group (groups : String → Finset String) (g sid : String) :
    String → Finset String :=
  fun g2 => if g2 = g then insert sid (groups g) else groups g2

/-- Transport `flask_socketio.leave_room`: unsubscribe `sid` from group `g`. -/
def leave_group (groups : String → Finset String) (g sid : String) :
    String → Finset String :=
  fun g2 => if g2 = g then (groups g).erase sid else groups g2

/-- A `room.error` emit to the requesting connection only. -/
def room_error_event (sid msg : String) : Event :=
  ⟨"room.error", .jobj [("error", .jstr msg)], .sid sid⟩

/-- Function `emit_presence` from `views/ws/rooms/common.py`: load the room by id; if
it no longer exists, do nothing; otherwise emit one `presence.update` whose
payload is `{"room": room.to_dict()}` to the channel of the room.  The function
only reads state and emits, so it returns the emitted events alone. -/
def emit_presence (st : ServerState) (room_id : Nat) : List Event :=
  match find_room_by_id st.rooms room_id with
  | none => []
  | some room =>
      [⟨"presence.update", .jobj [("room", room.to_dict)], .group (room_group room.code)⟩]

/-- Handler `_on_join_room` from `views/ws/rooms/join.py` (the `room.join` handler).
`sid` is `request.sid`, `auth` the decoded JWT subject, `nowS` the value of
`int(time.time())` and `nowMs` the value of `now_ms()`. -/
def on_join_room (st : ServerState) (sid : String) (auth : Option Nat)
    (data : EventData) (nowS nowMs : Nat) : ServerState × List Event :=
  let ct := data.clientTimestamp
  if idTruthy auth = false then
    (st, [room_error_event sid "Authentication required"])
  else if strTruthy data.code = false then
    (st, [room_error_event sid "Room code required"])
  else
    let uid := auth.getD 0
    let c := data.code.getD ""
    match find_room_by_code st.rooms c with
    | none => (st, [room_error_event sid "Room not found"])
    | some room =>
        let st1 := { st with users := update_user_on_join st.users uid nowS }
        let st2 := { st1 with groups := join_group st1.groups (room_group room.code) sid }
        let presence := emit_presence st2 room.id
        (st2, presence ++
          [⟨"user.join.result",
            .jobj
              [ ("ok", .jbool true)
              , ("code", .jstr room.code)
              , ("snapshot", room.to_dict)
              , ("serverNowMs", .jnum (nowMs : Int))
              , ("clientTimestamp", jOfOptInt ct)
              ],
            .sid sid⟩])

/-- Handler `_on_leave_room` from `views/ws/rooms/leave.py` (the `room.leave`
handler): unauthenticated caller, missing code or unknown room silently
no-op; otherwise update `last_seen`, leave the socket group and emit a
presence update. -/
def on_leave_room (st : ServerState) (sid : String) (auth : Option Nat)
    (data : EventData) (nowS : Nat) : ServerState × List Event :=
  if idTruthy auth = false then
    (st, [])
  else if strTruthy data.code = false then
    (st, [])
  else
    let uid := auth.getD 0
    let c := data.code.getD ""
    match find_room_by_code st.rooms c with
    | none => (st, [])
    | some room =>
        let st1 := { st with users := update_user_on_leave st.users uid nowS }
        let st2 := { st1 with groups := leave_group st1.groups (room_group room.code) sid }
        (st2, emit_presence st2 room.id)

/-- Handler `_on_connect` from `views/ws/rooms/join.py`: reject when no valid token,
otherwise track the socket connection; returns the accept/reject boolean. -/
def on_connect (st : ServerState) (sid : String) (auth : Option Nat)
    (nowS : Nat) : ServerState × Bool :=
  if idTruthy auth = false then
    (st, false)
  else
    ({ st with redis := track_socket_connection nowS st.redis (auth.getD 0) sid }, true)

/-- Handler `_on_disconnect` from `views/ws/rooms/join.py`: when the connection can
be attributed to a user, untrack it from the connection registry. -/
def on_disconnect (st : ServerState) (sid : String) (auth : Option Nat) : ServerState :=
  if idTruthy auth = false then
    st
  else
    { st with redis := remove_socket_connection st.redis (auth.getD 0) sid }

/-- Result of the `room.create` HTTP endpoint. -/
inductive CreateResult where
  | unauthorized : CreateResult
  | user_not_found : CreateResult
  | created (code : String) : CreateResult
deriving DecidableEq

/-- Fresh primary key for a new `Room` row (models the database
autoincrement). -/
def fresh_room_id (rooms : List Room) : Nat :=
  (rooms.map Room.id).foldr max 0 + 1

/-- Endpoint `room_create` from `views/ws/rooms/__init__.py`: authenticate, fetch the
user row, create a `Room` with the column defaults of `models/room/room.py`
(`code = secrets.token_hex(7)`, `created_at = int(time.time())`,
`is_private = True`), update the `last_seen`/`active` fields of the user, and return the
code of the new room. -/
def room_create (st : ServerState) (auth : Option Nat) (rb : Nat → Nat)
    (nowS : Nat) : ServerState × CreateResult :=
  if idTruthy auth = false then
    (st, .unauthorized)
  else
    let uid := auth.getD 0
    match find_user_by_id st.users uid with
    | none => (st, .user_not_found)
    | some _ =>
        let room : Room :=
          { id := fresh_room_id st.rooms
          , code := token_hex 7 rb
          , owner_id := some uid
          , created_at := nowS
          , is_private := true }
        let users2 := update_user_on_join st.users uid nowS
        ({ st with rooms := st.rooms ++ [room], users := users2 }, .created room.code)

/-! ## Shared concrete instances used by witnesses -/

/-- A Redis state with no keys at all. -/
def emptyRedis : RedisState :=
  { setKeys := fun _ => none, setExpiry := fun _ => none, strKeys := fun _ => none }

/-- A sample room row. -/
def sampleRoom : Room :=
  { id := 1, code := "abc123", owner_id := some 1, created_at := 100, is_private := true }

/-- A sample user row. -/
def sampleUser : User :=
  { id := 1, last_seen := 0, active := false }

/-- A sample server state with one user, one room and an empty Redis. -/
def sampleState : ServerState :=
  { users := [sampleUser], rooms := [sampleRoom], redis := some emptyRedis
  , groups := fun _ => ∅ }

/-! ## Helper lemmas -/

/-- Lookup by `find?` on the room list keyed by a primary key id returns the member row
itself when ids are pairwise distinct. -/
lemma find_room_by_id_of_mem (rooms : List Room) (room : Room)
    (hnd : (rooms.map Room.id).Nodup) (hmem : room ∈ rooms) :
    find_room_by_id rooms room.id = some room := by
  induction rooms with
  | nil => cases hmem
  | cons a l ih =>
      rw [List.map_cons, List.nodup_cons] at hnd
      obtain ⟨hna, hnd2⟩ := hnd
      rcases List.mem_cons.mp hmem with h | h
      · subst h
        simp [find_room_by_id, List.find?_cons]
      · have hne : (a.id == room.id) = false := by
          refine beq_eq_false_iff_ne.mpr ?_
          intro he
          exact hna (he ▸ List.mem_map_of_mem Room.id h)
        have := ih hnd2 h
        simp only [find_room_by_id, List.find?_cons, hne] at *
        exact this

/-- Pointwise relation between a list and its image under `map`. -/
lemma forall₂_map_self {R : User → User → Prop} (l : List User) (f : User → User)
    (h : ∀ u, R u (f u)) : List.Forall₂ R l (l.map f) := by
  induction l with
  | nil => exact List.Forall₂.nil
  | cons a t ih => exact List.Forall₂.cons (h a) ih

/-- Pointwise reflexivity of a relation along a list. -/
lemma forall₂_self {R : User → User → Prop} (l : List User)
    (h : ∀ u, R u u) : List.Forall₂ R l l := by
  induction l with
  | nil => exact List.Forall₂.nil
  | cons a t ih => exact List.Forall₂.cons (h a) ih

/-! ## Claims -/

/-- C4: `check_user_other_connections(u, c)` returns `true` iff
`list_connections(u) - {c}` is non-empty, whether or not `c` is itself a
member of the tracked set. -/
theorem check_user_other_connections_iff (r : Option RedisState) (uid : Nat) (sid : String) :
    check_user_other_connections r uid sid = true ↔
      (get_user_socket_connections r uid \ {sid}).Nonempty := by
  rw [Finset.sdiff_singleton_eq_erase]
  simp [check_user_other_connections, Finset.card_pos]

/-- C3: when user `uid` is absent from the connection registry, `track` then
`untrack` of the same `(uid, sid)` pair leaves `uid` absent: the connection
list is empty and the per-user key does not exist. -/
theorem track_then_untrack_absent (now : Nat) (r : Option RedisState) (uid : Nat)
    (sid : String) (habs : conn_key_absent r uid = true) :
    get_user_socket_connections
        (remove_socket_connection (track_socket_connection now r uid sid) uid sid) uid = ∅ ∧
      conn_key_absent
        (remove_socket_connection (track_socket_connection now r uid sid) uid sid) uid = true := by
  cases r with
  | none =>
      simp [track_socket_connection, remove_socket_connection,
        get_user_socket_connections, conn_key_absent]
  | some s =>
      have h0 : s.setKeys (user_connections_key uid) = none := by
        simpa [conn_key_absent, Option.isNone_iff_eq_none] using habs
      simp [track_socket_connection, remove_socket_connection, RedisState.sadd,
        RedisState.expire, RedisState.srem, RedisState.scard, RedisState.del,
        RedisState.smembers, get_user_socket_connections, conn_key_absent, h0]

/-- C3 witness: a concrete run from an empty store. -/
theorem track_then_untrack_absent_w :
    get_user_socket_connections
        (remove_socket_connection
          (track_socket_connection 0 (some emptyRedis) 1 "s1") 1 "s1") 1 = ∅ ∧
      conn_key_absent
        (remove_socket_connection
          (track_socket_connection 0 (some emptyRedis) 1 "s1") 1 "s1") 1 = true :=
  track_then_untrack_absent 0 (some emptyRedis) 1 "s1" (by decide)

/-- C7: with the store available and the verification key holding no set
value, `is_verified` is true immediately after `mark_verified`, false after
`clear`, and false once at least 30 seconds have elapsed since the mark
(the flag is stored with a fixed 30-second TTL). -/
theorem verification_flag_lifecycle (s : RedisState) (uid t t2 : Nat)
    (hset : s.setKeys (user_verification_key uid) = none) :
    has_user_been_verified t (set_user_verification_received t (some s) uid) uid = true ∧
      has_user_been_verified t
        (clear_user_verification (set_user_verification_received t (some s) uid) uid) uid
        = false ∧
      (t + 30 ≤ t2 →
        has_user_been_verified t2 (set_user_verification_received t (some s) uid) uid
          = false) := by
  refine ⟨?_, ?_, fun h => ?_⟩
  · simp [has_user_been_verified, set_user_verification_received, RedisState.setex,
      RedisState.keyExists]
  · simp [has_user_been_verified, set_user_verification_received, clear_user_verification,
      RedisState.setex, RedisState.del, RedisState.keyExists]
  · simp [has_user_been_verified, set_user_verification_received, RedisState.setex,
      RedisState.keyExists, hset]
    omega

/-- C7 witness: a concrete run at times 0 and 30. -/
theorem verification_flag_lifecycle_w :
    has_user_been_verified 0 (set_user_verification_received 0 (some emptyRedis) 1) 1 = true ∧
      has_user_been_verified 0
        (clear_user_verification (set_user_verification_received 0 (some emptyRedis) 1) 1) 1
        = false ∧
      has_user_been_verified 30 (set_user_verification_received 0 (some emptyRedis) 1) 1
        = false :=
  ⟨(verification_flag_lifecycle emptyRedis 1 0 30 rfl).1,
   (verification_flag_lifecycle emptyRedis 1 0 30 rfl).2.1,
   (verification_flag_lifecycle emptyRedis 1 0 30 rfl).2.2 (by omega)⟩

/-- C1: a `room.join` request whose code matches no room in the relational
store yields exactly one `room.error` event to the requesting connection
only, no `presence.update`, and leaves the whole server state unchanged. -/
theorem join_unknown_code_error_only (st : ServerState) (sid : String)
    (auth : Option Nat) (data : EventData) (nowS nowMs : Nat)
    (h : ∀ r ∈ st.rooms, data.code ≠ some r.code) :
    ∃ msg, on_join_room st sid auth data nowS nowMs = (st, [room_error_event sid msg]) := by
  by_cases h1 : idTruthy auth = false
  · exact ⟨"Authentication required", by simp [on_join_room, h1]⟩
  · have h1t : idTruthy auth = true := by
      revert h1; cases idTruthy auth <;> simp
    by_cases h2 : strTruthy data.code = false
    · exact ⟨"Room code required", by simp [on_join_room, h1t, h2]⟩
    · have h2t : strTruthy data.code = true := by
        revert h2; cases strTruthy data.code <;> simp
      have hfind : find_room_by_code st.rooms (data.code.getD "") = none := by
        apply List.find?_eq_none.mpr
        intro r hr
        cases hc : data.code with
        | none => rw [hc] at h2t; simp [strTruthy] at h2t
        | some c =>
            have hne := h r hr
            rw [hc] at hne
            simp only [hc, Option.getD_some, beq_iff_eq]
            intro he
            exact hne (by rw [he])
      exact ⟨"Room not found", by simp [on_join_room, h1t, h2t, hfind]⟩

/-- C1 witness: joining with an unknown code on a concrete state. -/
theorem join_unknown_code_error_only_w :
    ∃ msg, on_join_room sampleState "s1" (some 1) { code := some "zzz" } 5 6 =
      (sampleState, [room_error_event "s1" msg]) :=
  join_unknown_code_error_only sampleState "s1" (some 1) { code := some "zzz" } 5 6
    (by decide)

/-- C5: a `room.leave` request with a missing (or empty, hence falsy) code,
an unauthenticated caller, or a code matching no room is a silent no-op: no
event of any kind and no state mutation. -/
theorem leave_noop_on_failure (st : ServerState) (sid : String) (auth : Option Nat)
    (data : EventData) (nowS : Nat)
    (h : idTruthy auth = false ∨ strTruthy data.code = false ∨
      ∀ r ∈ st.rooms, data.code ≠ some r.code) :
    on_leave_room st sid auth data nowS = (st, []) := by
  by_cases h1 : idTruthy auth = false
  · simp [on_leave_room, h1]
  · have h1t : idTruthy auth = true := by
      revert h1; cases idTruthy auth <;> simp
    by_cases h2 : strTruthy data.code = false
    · simp [on_leave_room, h1t, h2]
    · have h2t : strTruthy data.code = true := by
        revert h2; cases strTruthy data.code <;> simp
      rcases h with h | h | h
      · rw [h1t] at h; cases h
      · rw [h2t] at h; cases h
      · have hfind : find_room_by_code st.rooms (data.code.getD "") = none := by
          apply List.find?_eq_none.mpr
          intro r hr
          cases hc : data.code with
          | none => rw [hc] at h2t; simp [strTruthy] at h2t
          | some c =>
              have hne := h r hr
              rw [hc] at hne
              simp only [hc, Option.getD_some, beq_iff_eq]
              intro he
              exact hne (by rw [he])
        simp [on_leave_room, h1t, h2t, hfind]

/-- C5 witness: leaving with a missing code on a concrete state. -/
theorem leave_noop_on_failure_w :
    on_leave_room sampleState "s1" (some 1) { code := none } 5 = (sampleState, []) :=
  leave_noop_on_failure sampleState "s1" (some 1) { code := none } 5
    (Or.inr (Or.inl rfl))

/-- C6: `emit_presence(room_id)` is a no-op (emits nothing; it performs no
writes by construction) when no room has id `room_id`, and emits exactly one
`presence.update` carrying the room snapshot to the channel of that room when the
room exists (room ids being pairwise distinct, as the primary key
guarantees). -/
theorem emit_presence_cases (st : ServerState) (rid : Nat) :
    ((∀ r ∈ st.rooms, r.id ≠ rid) → emit_presence st rid = []) ∧
      (∀ room, room ∈ st.rooms → room.id = rid → (st.rooms.map Room.id).Nodup →
        emit_presence st rid =
          [⟨"presence.update", .jobj [("room", room.to_dict)],
            .group (room_group room.code)⟩]) := by
  constructor
  · intro h
    have hfind : find_room_by_id st.rooms rid = none := by
      apply List.find?_eq_none.mpr
      intro r hr
      simp only [beq_iff_eq]
      exact h r hr
    simp [emit_presence, hfind]
  · intro room hmem hid hnd
    have hfind : find_room_by_id st.rooms rid = some room := by
      have h2 := find_room_by_id_of_mem st.rooms room hnd hmem
      rwa [hid] at h2
    simp [emit_presence, hfind]

/-- C6 witness: a missing room id and an existing one on a concrete state. -/
theorem emit_presence_cases_w :
    emit_presence sampleState 99 = [] ∧
      emit_presence sampleState 1 =
        [⟨"presence.update", .jobj [("room", sampleRoom.to_dict)],
          .group (room_group sampleRoom.code)⟩] :=
  ⟨(emit_presence_cases sampleState 99).1 (by decide),
   (emit_presence_cases sampleState 1).2 sampleRoom (by decide) rfl (by decide)⟩

/-- Row `u2` differs from row `u` at most in `last_seen`. -/
def onlyLastSeenChanged (u u2 : User) : Prop :=
  u2 = { u with last_seen := u2.last_seen }

/-- The `active` flag is never cleared going from `u` to `u2`. -/
def activePreserved (u u2 : User) : Prop :=
  u.active = true → u2.active = true

lemma onlyLastSeenChanged_refl (u : User) : onlyLastSeenChanged u u := rfl

lemma activePreserved_refl (u : User) : activePreserved u u := fun h => h

lemma update_on_leave_frame (users : List User) (uid t : Nat) :
    List.Forall₂ onlyLastSeenChanged users (update_user_on_leave users uid t) := by
  unfold update_user_on_leave
  cases find_user_by_id users uid with
  | none => exact forall₂_self _ onlyLastSeenChanged_refl
  | some _ =>
      refine forall₂_map_self _ _ (fun u => ?_)
      unfold onlyLastSeenChanged
      split <;> rfl

lemma update_on_join_active (users : List User) (uid t : Nat) :
    List.Forall₂ activePreserved users (update_user_on_join users uid t) := by
  unfold update_user_on_join
  cases find_user_by_id users uid with
  | none => exact forall₂_self _ activePreserved_refl
  | some _ =>
      refine forall₂_map_self _ _ (fun u => ?_)
      unfold activePreserved
      split <;> simp_all

lemma leave_users_frame (st : ServerState) (sid : String) (auth : Option Nat)
    (data : EventData) (nowS : Nat) :
    List.Forall₂ onlyLastSeenChanged st.users (on_leave_room st sid auth data nowS).1.users := by
  by_cases h1 : idTruthy auth = false
  · simp only [on_leave_room, if_pos h1]
    exact forall₂_self _ onlyLastSeenChanged_refl
  · by_cases h2 : strTruthy data.code = false
    · simp only [on_leave_room, if_neg h1, if_pos h2]
      exact forall₂_self _ onlyLastSeenChanged_refl
    · cases hf : find_room_by_code st.rooms (data.code.getD "") with
      | none =>
          simp only [on_leave_room, if_neg h1, if_neg h2, hf]
          exact forall₂_self _ onlyLastSeenChanged_refl
      | some room =>
          simp only [on_leave_room, if_neg h1, if_neg h2, hf]
          exact update_on_leave_frame st.users (auth.getD 0) nowS

lemma join_users_active (st : ServerState) (sid : String) (auth : Option Nat)
    (data : EventData) (nowS nowMs : Nat) :
    List.Forall₂ activePreserved st.users
      (on_join_room st sid auth data nowS nowMs).1.users := by
  by_cases h1 : idTruthy auth = false
  · simp only [on_join_room, if_pos h1]
    exact forall₂_self _ activePreserved_refl
  · by_cases h2 : strTruthy data.code = false
    · simp only [on_join_room, if_neg h1, if_pos h2]
      exact forall₂_self _ activePreserved_refl
    · cases hf : find_room_by_code st.rooms (data.code.getD "") with
      | none =>
          simp only [on_join_room, if_neg h1, if_neg h2, hf]
          exact forall₂_self _ activePreserved_refl
      | some room =>
          simp only [on_join_room, if_neg h1, if_neg h2, hf]
          exact update_on_join_active st.users (auth.getD 0) nowS

lemma create_users_active (st : ServerState) (auth : Option Nat) (rb : Nat → Nat)
    (nowS : Nat) :
    List.Forall₂ activePreserved st.users (room_create st auth rb nowS).1.users := by
  by_cases h1 : idTruthy auth = false
  · simp only [room_create, if_pos h1]
    exact forall₂_self _ activePreserved_refl
  · cases hf : find_user_by_id st.users (auth.getD 0) with
    | none =>
        simp only [room_create, if_neg h1, hf]
        exact forall₂_self _ activePreserved_refl
    | some u0 =>
        simp only [room_create, if_neg h1, hf]
        exact update_on_join_active st.users (auth.getD 0) nowS

/-- C9: a successful `room.leave` changes at most `last_seen` on user rows
(`active` is untouched), and no operation of the subsystem — join, leave,
room creation, connect or disconnect — ever clears the `active` flag: a user
once marked active stays active. -/
theorem active_never_cleared (st : ServerState) (sid : String) (auth : Option Nat)
    (data : EventData) (rb : Nat → Nat) (nowS nowMs : Nat) :
    List.Forall₂ onlyLastSeenChanged st.users
        (on_leave_room st sid auth data nowS).1.users ∧
      List.Forall₂ activePreserved st.users
        (on_join_room st sid auth data nowS nowMs).1.users ∧
      List.Forall₂ activePreserved st.users
        (room_create st auth rb nowS).1.users ∧
      (on_connect st sid auth nowS).1.users = st.users ∧
      (on_disconnect st sid auth).users = st.users := by
  refine ⟨leave_users_frame st sid auth data nowS,
    join_users_active st sid auth data nowS nowMs,
    create_users_active st auth rb nowS, ?_, ?_⟩
  · unfold on_connect; split <;> rfl
  · unfold on_disconnect; split <;> rfl

/-- C2: a `room.join` by an authenticated connection whose code matches an
existing room (the row of the requesting user being present, room ids pairwise
distinct) updates the `last_seen` and `active` fields of that user, adds the connection
to the socket-group of the room, publishes exactly one `presence.update` to the
room group, and emits exactly one `user.join.result` to the requester with
`ok = true`, the room code, the room snapshot, the server time in
milliseconds and the echoed `clientTimestamp`. -/
theorem join_valid_code_success (st : ServerState) (sid : String) (uid : Nat)
    (data : EventData) (room : Room) (c : String) (nowS nowMs : Nat)
    (huid : uid ≠ 0) (hdata : data.code = some c) (hc : c ≠ "")
    (hfind : find_room_by_code st.rooms c = some room)
    (hnd : (st.rooms.map Room.id).Nodup)
    (huser : (find_user_by_id st.users uid).isSome = true) :
    on_join_room st sid (some uid) data nowS nowMs =
      ({ st with
          users := st.users.map (fun u =>
            if u.id = uid then { u with last_seen := nowS, active := true } else u)
        , groups := join_group st.groups (room_group room.code) sid },
        [ ⟨"presence.update", .jobj [("room", room.to_dict)],
            .group (room_group room.code)⟩
        , ⟨"user.join.result",
            .jobj
              [ ("ok", .jbool true)
              , ("code", .jstr room.code)
              , ("snapshot", room.to_dict)
              , ("serverNowMs", .jnum (nowMs : Int))
              , ("clientTimestamp", jOfOptInt data.clientTimestamp)
              ],
            .sid sid⟩ ]) := by
  have h1 : ¬ idTruthy (some uid) = false := by simp [idTruthy, huid]
  have h2 : ¬ strTruthy data.code = false := by simp [strTruthy, hdata, hc]
  have hgetD : data.code.getD "" = c := by rw [hdata]; rfl
  have hmem : room ∈ st.rooms := List.mem_of_find?_eq_some hfind
  have hupd : update_user_on_join st.users uid nowS =
      st.users.map (fun u =>
        if u.id = uid then { u with last_seen := nowS, active := true } else u) := by
    unfold update_user_on_join
    cases hu : find_user_by_id st.users uid with
    | none => rw [hu] at huser; cases huser
    | some _ => rfl
  have hpres : find_room_by_id st.rooms room.id = some room :=
    find_room_by_id_of_mem st.rooms room hnd hmem
  simp only [on_join_room, if_neg h1, if_neg h2, Option.getD_some, hgetD, hfind, hupd,
    emit_presence, hpres]
  rfl

/-- C2 witness: a concrete successful join. -/
theorem join_valid_code_success_w :
    on_join_room sampleState "s1" (some 1)
        { code := some "abc123", clientTimestamp := some 42 } 7 8 =
      ({ sampleState with
          users := sampleState.users.map (fun u =>
            if u.id = 1 then { u with last_seen := 7, active := true } else u)
        , groups := join_group sampleState.groups (room_group sampleRoom.code) "s1" },
        [ ⟨"presence.update", .jobj [("room", sampleRoom.to_dict)],
            .group (room_group sampleRoom.code)⟩
        , ⟨"user.join.result",
            .jobj
              [ ("ok", .jbool true)
              , ("code", .jstr sampleRoom.code)
              , ("snapshot", sampleRoom.to_dict)
              , ("serverNowMs", .jnum 8)
              , ("clientTimestamp", jOfOptInt (some 42))
              ],
            .sid "s1"⟩ ]) :=
  join_valid_code_success sampleState "s1" 1
    { code := some "abc123", clientTimestamp := some 42 } sampleRoom "abc123" 7 8
    (by decide) rfl (by decide) (by decide) (by decide) (by decide)

lemma hexDigitChar_isHex (n : Nat) (h : n < 16) : isHexChar (hexDigitChar n) = true := by
  interval_cases n <;> decide

lemma byteToHex_isHex (b : Nat) : ∀ ch ∈ byteToHex b, isHexChar ch = true := by
  intro ch h
  rcases List.mem_cons.mp h with h1 | h1
  · subst h1; exact hexDigitChar_isHex _ (Nat.mod_lt _ (by norm_num))
  · rcases List.mem_cons.mp h1 with h2 | h2
    · subst h2; exact hexDigitChar_isHex _ (Nat.mod_lt _ (by norm_num))
    · cases h2

lemma tokenHexAux_length (n : Nat) (rb : Nat → Nat) :
    (tokenHexAux n rb).length = 2 * n := by
  induction n with
  | zero => rfl
  | succ k ih =>
      simp only [tokenHexAux, List.length_append, ih, byteToHex, List.length_cons,
        List.length_nil]
      omega

lemma tokenHexAux_isHex (n : Nat) (rb : Nat → Nat) :
    ∀ ch ∈ tokenHexAux n rb, isHexChar ch = true := by
  induction n with
  | zero => intro ch h; cases h
  | succ k ih =>
      intro ch h
      simp only [tokenHexAux] at h
      rcases List.mem_append.mp h with h1 | h1
      · exact ih ch h1
      · exact byteToHex_isHex _ ch h1

/-- C8: a room created through the creation endpoint is assigned the
server-generated code `secrets.token_hex(7)`: a random hex token of exactly
14 lowercase hexadecimal characters. -/
theorem room_create_code_hex (st : ServerState) (uid : Nat) (rb : Nat → Nat) (nowS : Nat)
    (huid : uid ≠ 0) (huser : (find_user_by_id st.users uid).isSome = true) :
    ∃ room : Room,
      room_create st (some uid) rb nowS =
        ({ st with
            rooms := st.rooms ++ [room]
          , users := update_user_on_join st.users uid nowS }, .created room.code) ∧
      room.code = token_hex 7 rb ∧
      room.code.length = 14 ∧
      ∀ ch ∈ room.code.data, isHexChar ch = true := by
  have h1 : ¬ idTruthy (some uid) = false := by simp [idTruthy, huid]
  cases hu : find_user_by_id st.users uid with
  | none => rw [hu] at huser; cases huser
  | some u0 =>
      refine ⟨{ id := fresh_room_id st.rooms, code := token_hex 7 rb
              , owner_id := some uid, created_at := nowS, is_private := true },
        ?_, rfl, ?_, ?_⟩
      · simp only [room_create, if_neg h1, Option.getD_some, hu]
      · show (tokenHexAux 7 rb).length = 14
        rw [tokenHexAux_length]
      · intro ch h
        exact tokenHexAux_isHex 7 rb ch h

/-- C8 witness: a concrete room creation with a constant byte stream. -/
theorem room_create_code_hex_w :
    ∃ room : Room,
      room_create sampleState (some 1) (fun _ => 171) 7 =
        ({ sampleState with
            rooms := sampleState.rooms ++ [room]
          , users := update_user_on_join sampleState.users 1 7 }, .created room.code) ∧
      room.code = token_hex 7 (fun _ => 171) ∧
      room.code.length = 14 ∧
      ∀ ch ∈ room.code.data, isHexChar ch = true :=
  room_create_code_hex sampleState 1 (fun _ => 171) 7 (by decide) (by decide)

lemma mem_emit_presence (st : ServerState) (rid : Nat) (e : Event)
    (h : e ∈ emit_presence st rid) :
    ∃ room, room ∈ st.rooms ∧
      e = ⟨"presence.update", .jobj [("room", room.to_dict)],
        .group (room_group room.code)⟩ := by
  unfold emit_presence at h
  cases hf : find_room_by_id st.rooms rid with
  | none => rw [hf] at h; cases h
  | some room =>
      rw [hf] at h
      exact ⟨room, List.mem_of_find?_eq_some hf, List.mem_singleton.mp h⟩

/-- C10: every `presence.update` payload — whether produced by
`emit_presence` directly or by the join/leave handlers — is exactly
`{"room": r}` where `r` is a room snapshot whose keys are precisely
`id`, `code`, `owner_id`, `created_at` and `is_private`: it carries no
user, membership or connection information. -/
theorem presence_update_payload_shape (st : ServerState) (rid : Nat) (sid : String)
    (auth : Option Nat) (data : EventData) (nowS nowMs : Nat) (e : Event)
    (hsrc : e ∈ emit_presence st rid ∨
      e ∈ (on_join_room st sid auth data nowS nowMs).2 ∨
      e ∈ (on_leave_room st sid auth data nowS).2)
    (hname : e.name = "presence.update") :
    ∃ room, room ∈ st.rooms ∧
      e.payload = JVal.jobj [("room", room.to_dict)] ∧
      (room.to_dict).keys = ["id", "code", "owner_id", "created_at", "is_private"] := by
  have hshape : ∀ (st2 : ServerState) (rid2 : Nat), st2.rooms = st.rooms →
      e ∈ emit_presence st2 rid2 →
      ∃ room, room ∈ st.rooms ∧ e.payload = JVal.jobj [("room", room.to_dict)] ∧
        (room.to_dict).keys = ["id", "code", "owner_id", "created_at", "is_private"] := by
    intro st2 rid2 hr h
    obtain ⟨room, hmem, he⟩ := mem_emit_presence st2 rid2 e h
    refine ⟨room, hr ▸ hmem, ?_, rfl⟩
    rw [he]
  rcases hsrc with h | h | h
  · exact hshape st rid rfl h
  · by_cases h1 : idTruthy auth = false
    · simp only [on_join_room, if_pos h1] at h
      rw [List.mem_singleton] at h
      rw [h] at hname
      simp [room_error_event] at hname
    · by_cases h2 : strTruthy data.code = false
      · simp only [on_join_room, if_neg h1, if_pos h2] at h
        rw [List.mem_singleton] at h
        rw [h] at hname
        simp [room_error_event] at hname
      · cases hf : find_room_by_code st.rooms (data.code.getD "") with
        | none =>
            simp only [on_join_room, if_neg h1, if_neg h2, hf] at h
            rw [List.mem_singleton] at h
            rw [h] at hname
            simp [room_error_event] at hname
        | some room =>
            simp only [on_join_room, if_neg h1, if_neg h2, hf] at h
            rcases List.mem_append.mp h with h3 | h3
            · exact hshape _ room.id rfl h3
            · rw [List.mem_singleton] at h3
              rw [h3] at hname
              simp at hname
  · by_cases h1 : idTruthy auth = false
    · simp only [on_leave_room, if_pos h1] at h
      cases h
    · by_cases h2 : strTruthy data.code = false
      · simp only [on_leave_room, if_neg h1, if_pos h2] at h
        cases h
      · cases hf : find_room_by_code st.rooms (data.code.getD "") with
        | none =>
            simp only [on_leave_room, if_neg h1, if_neg h2, hf] at h
            cases h
        | some room =>
            simp only [on_leave_room, if_neg h1, if_neg h2, hf] at h
            exact hshape _ room.id rfl h

/-- C10 witness: the concrete presence event of a concrete state. -/
theorem presence_update_payload_shape_w :
    ∃ room, room ∈ sampleState.rooms ∧
      (⟨"presence.update", .jobj [("room", sampleRoom.to_dict)],
        .group (room_group sampleRoom.code)⟩ : Event).payload =
          JVal.jobj [("room", room.to_dict)] ∧
      (room.to_dict).keys = ["id", "code", "owner_id", "created_at", "is_private"] := by
  refine presence_update_payload_shape sampleState 1 "s1" none {} 0 0 _ (Or.inl ?_) rfl
  show (⟨"presence.update", .jobj [("room", sampleRoom.to_dict)],
    .group (room_group sampleRoom.code)⟩ : Event) ∈ emit_presence sampleState 1
  have h : emit_presence sampleState 1 =
      [⟨"presence.update", .jobj [("room", sampleRoom.to_dict)],
        .group (room_group sampleRoom.code)⟩] := rfl
  rw [h]
  exact List.mem_singleton.mpr rfl
